import Mathlib

/-!
Verification of the jobscout-ai ingest connectors: the Google Careers
interactive scraper (`sites/Google.py`), the Playwright connector base
(`connectors/PlaywrightBase.py`) and the Greenhouse direct-fetch
connector (`connectors/Greenhouse.py`), embedded shallowly in Lean.
-/

namespace JobScout

/-! ## Shared string helpers

Python's `str.split("\n")` and `str.strip()`, modelled on character
lists so that the kernel can evaluate them on concrete inputs. -/

/-- A whitespace character as `str.strip` treats the ASCII cases
(space, tab, newline, carriage return, form feed, vertical tab). -/
def isStripChar (c : Char) : Bool :=
  c = ' ' || c = '\t' || c = '\n' || c = '\r' || c = '\x0c' || c = '\x0b'

/-- Python `s.split("\n")` on the character list: split at every newline,
keeping empty segments. -/
def splitNl : List Char → List (List Char)
  | [] => [[]]
  | c :: cs =>
    let r := splitNl cs
    if c = '\n' then [] :: r
    else
      match r with
      | [] => [[c]]
      | l :: ls => (c :: l) :: ls

/-- Python `s.strip()` restricted to ASCII whitespace: drop leading and
trailing whitespace characters. -/
def stripChars (l : List Char) : List Char :=
  ((l.dropWhile isStripChar).reverse.dropWhile isStripChar).reverse

/-- Python `s.strip()` on strings. -/
def pyStrip (s : String) : String :=
  ⟨stripChars s.toList⟩

/-- `[ln.strip() for ln in raw_text.split("\n") if ln.strip()]`: the
non-empty trimmed lines of a card text, shared by the three `_guess_*`
helpers of `sites/Google.py`. -/
def splitLines (raw_text : String) : List String :=
  ((splitNl raw_text.toList).map (fun l => (⟨stripChars l⟩ : String))).filter
    (fun ln => ln ≠ "")

/-! ## Google Careers connector (`sites/Google.py`) -/

/-- `GoogleCareersQuery` from `sites/Google.py` (frozen dataclass). -/
structure GoogleCareersQuery where
  keyword : String := "software engineer intern"
  locations : Option (List String) := none
  max_results : Nat := 100

/-- An anchor card element as the scrape loop observes it: its `href`
attribute (`none` models a missing attribute, for which
`page.get_attribute` returns `None`) and its rendered inner text. -/
structure Card where
  href : Option String
  innerText : String

/-- A raw job record: the Python dict emitted by the Google connector,
as an ordered key/value association list. -/
abbrev GRecord := List (String × String)

/-- `_guess_title` from `sites/Google.py`: first non-empty trimmed line,
or the empty string. -/
def _guess_title (raw_text : String) : String :=
  match splitLines raw_text with
  | [] => ""
  | ln :: _ => ln

/-- `_guess_location` from `sites/Google.py`: second non-empty trimmed
line when there are at least two, else the empty string. -/
def _guess_location (raw_text : String) : String :=
  let lines := splitLines raw_text
  if 2 ≤ lines.length then lines.getD 1 ("") else ("")

/-- `_guess_team` from `sites/Google.py`: third non-empty trimmed line
when there are at least three, else the empty string. -/
def _guess_team (raw_text : String) : String :=
  let lines := splitLines raw_text
  if 3 ≤ lines.length then lines.getD 2 ("") else ("")

/-- `c.startswith(d)` on character lists. -/
def charsBeginWith : List Char → List Char → Bool
  | _, [] => true
  | [], _ :: _ => false
  | c :: cs, d :: ds => c = d && charsBeginWith cs ds

/-- Python `s.startswith(t)`, kernel-computable. -/
def pyStartsWith (s t : String) : Bool :=
  charsBeginWith s.toList t.toList

/-- `urllib.parse.urljoin("https://careers.google.com", href)` for the
relative href shapes the results page produces (path references). The
scrape logic only compares the result for equality through the seen-set,
so no claim depends on finer points of RFC 3986 resolution. -/
def urljoinGoogle (href : String) : String :=
  if pyStartsWith href ("/") then ("https://careers.google.com") ++ href
  else ("https://careers.google.com/") ++ href

/-- `full_url = href if href.startswith("http") else urljoin(...)`. -/
def fullUrl (href : String) : String :=
  if pyStartsWith href ("http") then href else urljoinGoogle href

/-- The dict literal appended to `results` in
`GoogleCareersConnector.scrape`. -/
def mkGRecord (full_url title location team raw_text : String) : GRecord :=
  [("source", "google-careers"),
   ("source_url", full_url),
   ("title", title),
   ("location", location),
   ("team", team),
   ("raw_text", raw_text)]

/-- The `for a in cards:` body of `GoogleCareersConnector.scrape`: skip
cards with a missing or empty `href`, resolve the full URL, skip it when
already seen, otherwise extract a record, record the URL as seen, and
stop mid-round (`break`) as soon as `max_results` records are
accumulated. Returns the updated `results` and `seen_urls`. -/
def processCards (max_results : Nat) :
    List Card → List GRecord → List String → List GRecord × List String
  | [], results, seen => (results, seen)
  | a :: cards, results, seen =>
    match a.href with
    | none => processCards max_results cards results seen
    | some href =>
      if href = "" then processCards max_results cards results seen
      else
        let full_url := fullUrl href
        if full_url ∈ seen then processCards max_results cards results seen
        else
          let raw_text := pyStrip a.innerText
          let results' := results ++
            [mkGRecord full_url (_guess_title raw_text) (_guess_location raw_text)
              (_guess_team raw_text) raw_text]
          let seen' := full_url :: seen
          if max_results ≤ results'.length then (results', seen')
          else processCards max_results cards results' seen'

/-- The `while len(results) < self.query.max_results and stagnant_rounds < 6:`
loop of `GoogleCareersConnector.scrape`. The page is modelled as the
sequence of card lists that `page.query_selector_all` returns on each
round (`page round`); scrolling and waiting only influence which cards
the next round observes. `fuel` bounds the recursion; `none` means the
fuel ran out before the loop condition failed, and
`google_scrape_terminates` shows enough fuel always exists. -/
def scrapeLoop (page : Nat → List Card) (max_results : Nat) :
    Nat → Nat → List GRecord → List String → Nat → Nat → Option (List GRecord)
  | 0, _, _, _, _, _ => none
  | fuel + 1, round, results, seen, stagnant_rounds, last_count =>
    if results.length < max_results ∧ stagnant_rounds < 6 then
      let rs := processCards max_results (page round) results seen
      if rs.1.length = last_count then
        scrapeLoop page max_results fuel (round + 1) rs.1 rs.2
          (stagnant_rounds + 1) last_count
      else
        scrapeLoop page max_results fuel (round + 1) rs.1 rs.2 0 rs.1.length
    else
      some results

/-- Fuel sufficient for `scrapeLoop` to reach its loop exit (proved in
`google_scrape_terminates`). -/
def scrapeFuel (max_results : Nat) : Nat :=
  7 * max_results + 7

/-- `GoogleCareersConnector` from `sites/Google.py`, holding its frozen
query. -/
structure GoogleCareersConnector where
  query : GoogleCareersQuery

/-- `GoogleCareersConnector.scrape(page)`: run the scroll loop from the
empty session state and return `results[: self.query.max_results]`. -/
def GoogleCareersConnector.scrape (c : GoogleCareersConnector)
    (page : Nat → List Card) : List GRecord :=
  ((scrapeLoop page c.query.max_results (scrapeFuel c.query.max_results)
      0 [] [] 0 0).getD []).take c.query.max_results

/-- The identifying URL of an emitted record. -/
def recordUrl (r : GRecord) : String :=
  (r.lookup ("source_url")).getD ("")

/-- The value of `stagnant_rounds` at each evaluation of the `while`
condition in `GoogleCareersConnector.scrape`, in order, for the same
run as `scrapeLoop`. -/
def scrapeLoopStagnants (page : Nat → List Card) (max_results : Nat) :
    Nat → Nat → List GRecord → List String → Nat → Nat → List Nat
  | 0, _, _, _, _, _ => []
  | fuel + 1, round, results, seen, stagnant_rounds, last_count =>
    stagnant_rounds ::
      (if results.length < max_results ∧ stagnant_rounds < 6 then
        let rs := processCards max_results (page round) results seen
        if rs.1.length = last_count then
          scrapeLoopStagnants page max_results fuel (round + 1) rs.1 rs.2
            (stagnant_rounds + 1) last_count
        else
          scrapeLoopStagnants page max_results fuel (round + 1) rs.1 rs.2 0 rs.1.length
      else [])

/-! ## Playwright connector base (`connectors/PlaywrightBase.py`)

`PlaywrightConnector.fetch` is

    with sync_playwright() as p:
        browser = p.chromium.launch(headless=True)
        page = browser.new_page()
        jobs = self.scrape(page)
        browser.close()
        return jobs

The browser automation runtime is an external collaborator; what the
embedding records is which release actions run on each exit path. The
`with sync_playwright() as p` context manager guarantees `p.stop()` on
both normal return and exception propagation; stopping the Playwright
driver shuts down the driver process and with it every browser it
launched, so `playwright_stopped` releases the page/browser resource
even when the explicit `browser.close()` line was skipped. -/

/-- Outcome of one invocation of the abstract per-site `scrape(page)`
body: either it returns a record list or it raises. -/
inductive ScrapeOutcome (α : Type) where
  | ok (jobs : α)
  | raises (msg : String)

/-- What one `fetch()` invocation did: its result (value or propagated
exception) and which release actions ran on that exit path. -/
structure FetchExit (α : Type) where
  result : Except String α
  browser_close_called : Bool
  playwright_stopped : Bool

/-- `PlaywrightConnector.fetch(self)`, as a function of what the
delegated `scrape(page)` call does. On the normal path the explicit
`browser.close()` line runs and the `with` block exits; when
`scrape(page)` raises, control leaves the `with` block exceptionally:
`browser.close()` is skipped but the context manager still stops the
driver before the exception propagates. -/
def PlaywrightConnector.fetch {α : Type} (scrape_outcome : ScrapeOutcome α) :
    FetchExit α :=
  match scrape_outcome with
  | .ok jobs =>
      { result := .ok jobs, browser_close_called := true, playwright_stopped := true }
  | .raises msg =>
      { result := .error msg, browser_close_called := false, playwright_stopped := true }

/-- The acquired browser/page resource counts as released when either
release action ran: the explicit `browser.close()` call, or the driver
shutdown performed by the `with sync_playwright()` exit. -/
def browserReleased {α : Type} (e : FetchExit α) : Bool :=
  e.browser_close_called || e.playwright_stopped

/-! ## Greenhouse connector (`connectors/Greenhouse.py`) -/

/-- A JSON value as `resp.json()` produces it (numbers restricted to
integers; the job-board payloads involved carry no floats). -/
inductive Json where
  | null
  | bool (b : Bool)
  | num (n : Int)
  | str (s : String)
  | arr (elems : List Json)
  | obj (fields : List (String × Json))

/-- Python truthiness of a JSON-decoded value: `None`, `False`, `0`,
`""`, `[]` and `{}` are falsy. Used for the `or` defaults in
`GreenhouseConnector.fetch`. -/
def Json.falsy : Json → Bool
  | .null => true
  | .bool b => !b
  | .num n => n == 0
  | .str s => s == ""
  | .arr elems => elems.isEmpty
  | .obj fields => fields.isEmpty

/-- `GreenhouseQuery` from `connectors/Greenhouse.py` (frozen
dataclass). -/
structure GreenhouseQuery where
  board_token : String
  content : Bool := true
  timeout_s : Nat := 25

/-- The ways a `GreenhouseConnector.fetch` call raises: an
`requests.HTTPError` from `raise_for_status`, a JSON decode failure
from `resp.json()`, or a `TypeError`/`AttributeError` from operating on
a value of an unexpected shape. -/
inductive FetchError where
  | httpStatus (code : Nat)
  | invalidJson
  | badShape

/-- The HTTP response the external `requests.get` collaborator handed
back: its status code and the result of parsing its body as JSON
(`none` = unparseable body, so `resp.json()` raises). -/
structure HttpResponse where
  status_code : Nat
  body : Option Json

/-- A raw Greenhouse job record: the Python dict built per job, as an
ordered key/value association list. -/
abbrev GhRecord := List (String × Json)

/-- `(j.get("location") or {}).get("name", "")`: a falsy `location`
value is replaced by the empty dict; `.get` on a truthy non-dict value
raises `AttributeError`. -/
def locationName (fields : List (String × Json)) : Except FetchError Json :=
  let loc := (fields.lookup ("location")).getD .null
  let loc := if loc.falsy then Json.obj [] else loc
  match loc with
  | .obj g => .ok ((g.lookup ("name")).getD (.str ("")))
  | _ => .error .badShape

/-- The dict built in the `for j in jobs:` body of
`GreenhouseConnector.fetch`; `j.get` on a non-dict job element raises
`AttributeError`. -/
def mapJob (q : GreenhouseQuery) (j : Json) : Except FetchError GhRecord :=
  match j with
  | .obj fields =>
    match locationName fields with
    | .error e => .error e
    | .ok loc =>
      .ok [("source", .str ("greenhouse")),
           ("board_token", .str q.board_token),
           ("id", (fields.lookup ("id")).getD .null),
           ("title", (fields.lookup ("title")).getD .null),
           ("location", loc),
           ("absolute_url", (fields.lookup ("absolute_url")).getD (.str (""))),
           ("content",
             if q.content then (fields.lookup ("content")).getD (.str ("")) else .str ("")),
           ("departments", (fields.lookup ("departments")).getD (.arr [])),
           ("offices", (fields.lookup ("offices")).getD (.arr [])),
           ("raw", .obj fields)]
  | _ => .error .badShape

/-- The `for j in jobs:` loop: map the job elements in order; a raise
mid-loop aborts the whole call, discarding the local `out` list. -/
def mapJobs (q : GreenhouseQuery) : List Json → Except FetchError (List GhRecord)
  | [] => .ok []
  | j :: js =>
    match mapJob q j with
    | .error e => .error e
    | .ok r =>
      match mapJobs q js with
      | .error e => .error e
      | .ok rs => .ok (r :: rs)

/-- `GreenhouseConnector` from `connectors/Greenhouse.py`, holding its
frozen query. -/
structure GreenhouseConnector where
  query : GreenhouseQuery

/-- `GreenhouseConnector.fetch(self)` as a function of the response the
HTTP collaborator returned. `resp.raise_for_status()` raises exactly
for status codes in `[400, 600)` (requests' documented behaviour);
`resp.json()` raises on an unparseable body; `data.get("jobs", []) or
[]` turns a missing or falsy `jobs` value into the empty list; iterating
a truthy non-list `jobs` value either raises directly or yields non-dict
elements whose `.get` raises. -/
def GreenhouseConnector.fetch (c : GreenhouseConnector) (resp : HttpResponse) :
    Except FetchError (List GhRecord) :=
  if 400 ≤ resp.status_code ∧ resp.status_code < 600 then
    .error (.httpStatus resp.status_code)
  else
    match resp.body with
    | none => .error .invalidJson
    | some data =>
      match data with
      | .obj fields =>
        let jobsVal := (fields.lookup ("jobs")).getD (.arr [])
        let jobsVal := if jobsVal.falsy then Json.arr [] else jobsVal
        match jobsVal with
        | .arr jobs => mapJobs c.query jobs
        | _ => .error .badShape
      | _ => .error .badShape

/-! ## Discrete pagination advance strategy (spec §4.2, strategy A)

Modelled from the spec: the repository's source files contain only the
scroll-triggered strategy (B, `sites/Google.py`); the discrete
"next"-control strategy (A) is required by the spec's Scrape Session
Engine but has no implementation under the source tree, so it is
modelled here from the spec's step list 1–3 of §4.2 strategy A. -/

/-- A visible result element: its identifying URL and rendered text. -/
structure PElem where
  ident : String
  text : String
  deriving DecidableEq

/-- Modelled from the spec: what the page shows on one pagination step —
the visible result elements, whether the "next" control is present and
enabled, and whether, after activating it, the first visible element's
identifier changes from the pre-click marker within the bounded wait. -/
structure PageView where
  elements : List PElem
  nextPresent : Bool
  nextEnabled : Bool
  advanceChanges : Bool

/-- A record extracted by the shared heuristic from one element. -/
def mkPRecord (e : PElem) : GRecord :=
  [("source_url", e.ident),
   ("title", _guess_title e.text),
   ("location", _guess_location e.text),
   ("team", _guess_team e.text),
   ("raw_text", e.text)]

/-- Modelled from the spec: step 2b of strategy A — extract a candidate
record per element, skip an empty or already-seen identifying URL,
stop extracting mid-page as soon as `max_results` is reached. -/
def extractPage (max_results : Nat) :
    List PElem → List GRecord → List String → List GRecord × List String
  | [], results, seen => (results, seen)
  | e :: es, results, seen =>
    if e.ident = "" ∨ e.ident ∈ seen then extractPage max_results es results seen
    else
      let results' := results ++ [mkPRecord e]
      let seen' := e.ident :: seen
      if max_results ≤ results'.length then (results', seen')
      else extractPage max_results es results' seen'

/-- Modelled from the spec: the strategy-A loop of §4.2 — while
`len(results) < max_results` and `pages_visited < max_pages` (the
remaining page budget is the recursion's fuel): stop on an empty page;
extract; stop when the "next" control is absent or disabled (terminal:
no more pages); stop when the first visible element's identifier does
not change from the pre-click marker within the bounded wait (terminal:
stalled navigation); otherwise advance to the next page view. -/
def paginationLoop (site : Nat → PageView) (max_results : Nat) :
    Nat → Nat → List GRecord → List String → List GRecord
  | 0, _, results, _ => results
  | budget + 1, k, results, seen =>
    if results.length < max_results then
      if (site k).elements = [] then results
      else
        let rs := extractPage max_results (site k).elements results seen
        if (site k).nextPresent = false ∨ (site k).nextEnabled = false then rs.1
        else if (site k).advanceChanges = false then rs.1
        else paginationLoop site max_results budget (k + 1) rs.1 rs.2
    else results

/-- Modelled from the spec: step 3 of strategy A — run the loop from the
empty session state and return `results` truncated to `max_results`. -/
def paginate (site : Nat → PageView) (max_results max_pages : Nat) : List GRecord :=
  (paginationLoop site max_results max_pages 0 [] []).take max_results

/-! ## Concrete inputs used to instantiate the theorems -/

/-- The fixed key sequence of every dict the Google connector emits. -/
def gKeys : List String :=
  ["source", "source_url", "title", "location", "team", "raw_text"]

/-- The fixed key sequence of every dict the Greenhouse connector
emits. -/
def ghKeys : List String :=
  ["source", "board_token", "id", "title", "location", "absolute_url",
   "content", "departments", "offices", "raw"]

/-- A small concrete Google connector (two results wanted). -/
def cW : GoogleCareersConnector :=
  ⟨{ max_results := 2 }⟩

/-- A concrete page: every round shows the same three cards (one of
them with a missing href), exercising dedup across rounds. -/
def pageW : Nat → List Card :=
  fun _ =>
    [⟨some ("/jobs/results/1"), "A\nB\nC"⟩,
     ⟨some ("/jobs/results/2"), "D"⟩,
     ⟨none, "E"⟩]

/-- A concrete Greenhouse connector. -/
def ghW : GreenhouseConnector :=
  ⟨{ board_token := "acme" }⟩

/-- The job object of the spec's Direct-Fetch scenario. -/
def ghJobW : Json :=
  .obj [("id", .num 1),
        ("title", .str ("X")),
        ("location", .obj [("name", .str ("NY"))]),
        ("absolute_url", .str ("u1")),
        ("content", .str ("c")),
        ("departments", .arr [.obj [("name", .str ("Eng"))]])]

/-- The response body of the spec's Direct-Fetch scenario. -/
def ghBodyW : Json :=
  .obj [("jobs", .arr [ghJobW])]

/-- The record `GreenhouseConnector.fetch` builds from `ghJobW`. -/
def ghRecW : GhRecord :=
  [("source", .str ("greenhouse")),
   ("board_token", .str ("acme")),
   ("id", .num 1),
   ("title", .str ("X")),
   ("location", .str ("NY")),
   ("absolute_url", .str ("u1")),
   ("content", .str ("c")),
   ("departments", .arr [.obj [("name", .str ("Eng"))]]),
   ("offices", .arr []),
   ("raw", ghJobW)]

/-- A concrete site for the pagination strategy: one element per page,
the "next" control disabled on page 1. -/
def siteW : Nat → PageView :=
  fun k =>
    if k = 0 then
      { elements := [⟨"u0", "T0\nL0"⟩], nextPresent := true, nextEnabled := true,
        advanceChanges := true }
    else
      { elements := [⟨"u1", "T1\nL1"⟩], nextPresent := true, nextEnabled := false,
        advanceChanges := true }

/-! ## Proofs: shared lemmas -/

theorem recordUrl_mkGRecord (u t l te rt : String) :
    recordUrl (mkGRecord u t l te rt) = u := rfl

theorem keys_mkGRecord (u t l te rt : String) :
    (mkGRecord u t l te rt).map Prod.fst = gKeys := rfl


theorem processCards_length_mono (m : Nat) (cards : List Card) :
    ∀ results seen, results.length ≤ (processCards m cards results seen).1.length := by
  induction cards with
  | nil => intro results seen; simp [processCards]
  | cons a cards ih =>
    intro results seen
    simp only [processCards]
    cases a.href with
    | none => exact ih results seen
    | some href =>
      by_cases h1 : href = ""
      · simp only [if_pos h1]; exact ih results seen
      · simp only [if_neg h1]
        by_cases h2 : fullUrl href ∈ seen
        · simp only [if_pos h2]; exact ih results seen
        · simp only [if_neg h2]
          by_cases h3 : m ≤ results.length + 1
          · simp only [List.length_append, List.length_singleton, if_pos h3]
            simp
          · simp only [List.length_append, List.length_singleton, if_neg h3]
            exact le_trans (by simp) (ih _ _)

theorem processCards_length_le (m : Nat) (cards : List Card) :
    ∀ results seen, results.length < m →
      (processCards m cards results seen).1.length ≤ m := by
  induction cards with
  | nil => intro results seen h; simpa [processCards] using Nat.le_of_lt h
  | cons a cards ih =>
    intro results seen h
    simp only [processCards]
    cases a.href with
    | none => exact ih results seen h
    | some href =>
      by_cases h1 : href = ""
      · simp only [if_pos h1]; exact ih results seen h
      · simp only [if_neg h1]
        by_cases h2 : fullUrl href ∈ seen
        · simp only [if_pos h2]; exact ih results seen h
        · simp only [if_neg h2]
          by_cases h3 : m ≤ results.length + 1
          · simp only [List.length_append, List.length_singleton, if_pos h3]
            simpa using h
          · simp only [List.length_append, List.length_singleton, if_neg h3]
            exact ih _ _ (by simp; omega)

theorem processCards_seen_mono (m : Nat) (cards : List Card) :
    ∀ results seen u, u ∈ seen → u ∈ (processCards m cards results seen).2 := by
  induction cards with
  | nil => intro results seen u hu; simpa [processCards] using hu
  | cons a cards ih =>
    intro results seen u hu
    simp only [processCards]
    cases a.href with
    | none => exact ih results seen u hu
    | some href =>
      by_cases h1 : href = ""
      · simp only [if_pos h1]; exact ih results seen u hu
      · simp only [if_neg h1]
        by_cases h2 : fullUrl href ∈ seen
        · simp only [if_pos h2]; exact ih results seen u hu
        · simp only [if_neg h2]
          by_cases h3 : m ≤ results.length + 1
          · simp only [List.length_append, List.length_singleton, if_pos h3]
            exact List.mem_cons_of_mem _ hu
          · simp only [List.length_append, List.length_singleton, if_neg h3]
            exact ih _ _ u (List.mem_cons_of_mem _ hu)

theorem processCards_nodup (m : Nat) (cards : List Card) :
    ∀ results seen, (results.map recordUrl).Nodup →
      (∀ r ∈ results, recordUrl r ∈ seen) →
      ((processCards m cards results seen).1.map recordUrl).Nodup ∧
        ∀ r ∈ (processCards m cards results seen).1,
          recordUrl r ∈ (processCards m cards results seen).2 := by
  induction cards with
  | nil =>
    intro results seen hnd hmem
    simpa [processCards] using ⟨hnd, hmem⟩
  | cons a cards ih =>
    intro results seen hnd hmem
    simp only [processCards]
    cases a.href with
    | none => exact ih results seen hnd hmem
    | some href =>
      by_cases h1 : href = ""
      · simp only [if_pos h1]; exact ih results seen hnd hmem
      · simp only [if_neg h1]
        by_cases h2 : fullUrl href ∈ seen
        · simp only [if_pos h2]; exact ih results seen hnd hmem
        · simp only [if_neg h2]
          have hnotin : fullUrl href ∉ results.map recordUrl := by
            intro hcontra
            rcases List.mem_map.mp hcontra with ⟨r, hr, hru⟩
            exact h2 (hru ▸ hmem r hr)
          have hnd' : ((results ++ [mkGRecord (fullUrl href)
              (_guess_title (pyStrip a.innerText)) (_guess_location (pyStrip a.innerText))
              (_guess_team (pyStrip a.innerText)) (pyStrip a.innerText)]).map recordUrl).Nodup := by
            rw [List.map_append]
            rw [List.nodup_append_comm]
            simp only [List.map_cons, List.map_nil, List.singleton_append]
            exact List.nodup_cons.mpr ⟨by simpa [recordUrl_mkGRecord] using hnotin, hnd⟩
          have hmem' : ∀ r ∈ results ++ [mkGRecord (fullUrl href)
              (_guess_title (pyStrip a.innerText)) (_guess_location (pyStrip a.innerText))
              (_guess_team (pyStrip a.innerText)) (pyStrip a.innerText)],
              recordUrl r ∈ fullUrl href :: seen := by
            intro r hr
            rcases List.mem_append.mp hr with hr | hr
            · exact List.mem_cons_of_mem _ (hmem r hr)
            · rcases List.mem_singleton.mp hr with rfl
              simp [recordUrl_mkGRecord]
          by_cases h3 : m ≤ results.length + 1
          · simp only [List.length_append, List.length_singleton, if_pos h3]
            exact ⟨by simpa using hnd', by simpa using hmem'⟩
          · simp only [List.length_append, List.length_singleton, if_neg h3]
            exact ih _ _ (by simpa using hnd') (by simpa using hmem')

theorem processCards_keys (m : Nat) (cards : List Card) :
    ∀ results seen, (∀ r ∈ results, r.map Prod.fst = gKeys) →
      ∀ r ∈ (processCards m cards results seen).1, r.map Prod.fst = gKeys := by
  induction cards with
  | nil => intro results seen h; simpa [processCards] using h
  | cons a cards ih =>
    intro results seen h
    simp only [processCards]
    cases a.href with
    | none => exact ih results seen h
    | some href =>
      by_cases h1 : href = ""
      · simp only [if_pos h1]; exact ih results seen h
      · simp only [if_neg h1]
        by_cases h2 : fullUrl href ∈ seen
        · simp only [if_pos h2]; exact ih results seen h
        · simp only [if_neg h2]
          have h' : ∀ r ∈ results ++ [mkGRecord (fullUrl href)
              (_guess_title (pyStrip a.innerText)) (_guess_location (pyStrip a.innerText))
              (_guess_team (pyStrip a.innerText)) (pyStrip a.innerText)],
              r.map Prod.fst = gKeys := by
            intro r hr
            rcases List.mem_append.mp hr with hr | hr
            · exact h r hr
            · rcases List.mem_singleton.mp hr with rfl
              exact keys_mkGRecord _ _ _ _ _
          by_cases h3 : m ≤ results.length + 1
          · simp only [List.length_append, List.length_singleton, if_pos h3]
            simpa using h'
          · simp only [List.length_append, List.length_singleton, if_neg h3]
            exact ih _ _ (by simpa using h')



theorem scrapeLoop_some_nodup (page : Nat → List Card) (m : Nat) :
    ∀ fuel round results seen st lc res,
      (results.map recordUrl).Nodup → (∀ r ∈ results, recordUrl r ∈ seen) →
      scrapeLoop page m fuel round results seen st lc = some res →
      (res.map recordUrl).Nodup := by
  intro fuel
  induction fuel with
  | zero => intro round results seen st lc res _ _ h; simp [scrapeLoop] at h
  | succ fuel ih =>
    intro round results seen st lc res hnd hmem h
    simp only [scrapeLoop] at h
    by_cases hg : results.length < m ∧ st < 6
    · simp only [if_pos hg] at h
      by_cases he : (processCards m (page round) results seen).1.length = lc
      · rw [if_pos he] at h
        exact ih _ _ _ _ _ _
          (processCards_nodup m (page round) results seen hnd hmem).1
          (processCards_nodup m (page round) results seen hnd hmem).2 h
      · rw [if_neg he] at h
        exact ih _ _ _ _ _ _
          (processCards_nodup m (page round) results seen hnd hmem).1
          (processCards_nodup m (page round) results seen hnd hmem).2 h
    · simp only [if_neg hg, Option.some.injEq] at h
      exact h ▸ hnd

theorem scrapeLoop_some_length (page : Nat → List Card) (m : Nat) :
    ∀ fuel round results seen st lc res,
      results.length ≤ m →
      scrapeLoop page m fuel round results seen st lc = some res →
      res.length ≤ m := by
  intro fuel
  induction fuel with
  | zero => intro round results seen st lc res _ h; simp [scrapeLoop] at h
  | succ fuel ih =>
    intro round results seen st lc res hle h
    simp only [scrapeLoop] at h
    by_cases hg : results.length < m ∧ st < 6
    · simp only [if_pos hg] at h
      have hle' : (processCards m (page round) results seen).1.length ≤ m :=
        processCards_length_le m (page round) results seen hg.1
      by_cases he : (processCards m (page round) results seen).1.length = lc
      · rw [if_pos he] at h; exact ih _ _ _ _ _ _ hle' h
      · rw [if_neg he] at h; exact ih _ _ _ _ _ _ hle' h
    · simp only [if_neg hg, Option.some.injEq] at h
      exact h ▸ hle

theorem scrapeLoop_some_keys (page : Nat → List Card) (m : Nat) :
    ∀ fuel round results seen st lc res,
      (∀ r ∈ results, r.map Prod.fst = gKeys) →
      scrapeLoop page m fuel round results seen st lc = some res →
      ∀ r ∈ res, r.map Prod.fst = gKeys := by
  intro fuel
  induction fuel with
  | zero => intro round results seen st lc res _ h; simp [scrapeLoop] at h
  | succ fuel ih =>
    intro round results seen st lc res hk h
    simp only [scrapeLoop] at h
    by_cases hg : results.length < m ∧ st < 6
    · simp only [if_pos hg] at h
      have hk' := processCards_keys m (page round) results seen hk
      by_cases he : (processCards m (page round) results seen).1.length = lc
      · rw [if_pos he] at h; exact ih _ _ _ _ _ _ hk' h
      · rw [if_neg he] at h; exact ih _ _ _ _ _ _ hk' h
    · simp only [if_neg hg, Option.some.injEq] at h
      exact h ▸ hk

theorem scrapeLoopStagnants_le (page : Nat → List Card) (m : Nat) :
    ∀ fuel round results seen st lc, st ≤ 6 →
      ∀ s ∈ scrapeLoopStagnants page m fuel round results seen st lc, s ≤ 6 := by
  intro fuel
  induction fuel with
  | zero => intro round results seen st lc _ s hs; simp [scrapeLoopStagnants] at hs
  | succ fuel ih =>
    intro round results seen st lc hst s hs
    simp only [scrapeLoopStagnants] at hs
    rcases List.mem_cons.mp hs with rfl | hs
    · exact hst
    · by_cases hg : results.length < m ∧ st < 6
      · simp only [if_pos hg] at hs
        by_cases he : (processCards m (page round) results seen).1.length = lc
        · rw [if_pos he] at hs
          exact ih _ _ _ _ _ (by omega) s hs
        · rw [if_neg he] at hs
          exact ih _ _ _ _ _ (by omega) s hs
      · simp only [if_neg hg] at hs
        exact absurd hs (List.not_mem_nil s)

theorem scrapeLoop_isSome (page : Nat → List Card) (m : Nat) :
    ∀ fuel results round seen st, st ≤ 6 →
      7 * (m - results.length) + (6 - st) < fuel →
      (scrapeLoop page m fuel round results seen st results.length).isSome := by
  intro fuel
  induction fuel with
  | zero => intro results round seen st _ h2; exact absurd h2 (Nat.not_lt_zero _)
  | succ fuel ih =>
    intro results round seen st hst h2
    simp only [scrapeLoop]
    by_cases hg : results.length < m ∧ st < 6
    · simp only [if_pos hg]
      by_cases he : (processCards m (page round) results seen).1.length = results.length
      · rw [if_pos he, ← he]
        exact ih _ (round + 1) _ (st + 1) (by omega) (by rw [he]; omega)
      · rw [if_neg he]
        have hmono := processCards_length_mono m (page round) results seen
        have hle : (processCards m (page round) results seen).1.length ≤ m :=
          processCards_length_le m (page round) results seen hg.1
        exact ih _ (round + 1) _ 0 (by omega) (by omega)
    · simp only [if_neg hg, Option.isSome_some]

theorem scrapeLoop_mono_succ (page : Nat → List Card) (m : Nat) :
    ∀ fuel round results seen st lc res,
      scrapeLoop page m fuel round results seen st lc = some res →
      scrapeLoop page m (fuel + 1) round results seen st lc = some res := by
  intro fuel
  induction fuel with
  | zero => intro round results seen st lc res h; simp [scrapeLoop] at h
  | succ fuel ih =>
    intro round results seen st lc res h
    simp only [scrapeLoop] at h ⊢
    by_cases hg : results.length < m ∧ st < 6
    · simp only [if_pos hg] at h ⊢
      by_cases he : (processCards m (page round) results seen).1.length = lc
      · rw [if_pos he] at h ⊢; exact ih _ _ _ _ _ _ h
      · rw [if_neg he] at h ⊢; exact ih _ _ _ _ _ _ h
    · simp only [if_neg hg] at h ⊢; exact h

theorem scrapeLoop_mono (page : Nat → List Card) (m : Nat)
    (f1 f2 round : Nat) (results : List GRecord) (seen : List String)
    (st lc : Nat) (res : List GRecord) (hle : f1 ≤ f2)
    (h : scrapeLoop page m f1 round results seen st lc = some res) :
    scrapeLoop page m f2 round results seen st lc = some res := by
  induction f2, hle using Nat.le_induction with
  | base => exact h
  | succ f2 hle ih => exact scrapeLoop_mono_succ page m f2 round results seen st lc res ih
/-! ## Claim theorems -/

/-- C1: in every scrape session of the Google Careers connector, the
records returned by `scrape(page)` are pairwise distinct on their
identifying URL `source_url`, for every page behaviour, even when the
same card is observed across multiple scroll rounds: an identifier
already in the seen-set is skipped. -/
theorem google_scrape_source_urls_nodup (c : GoogleCareersConnector)
    (page : Nat → List Card) :
    ((c.scrape page).map recordUrl).Nodup := by
  unfold GoogleCareersConnector.scrape
  cases h : scrapeLoop page c.query.max_results (scrapeFuel c.query.max_results)
      0 [] [] 0 0 with
  | none => simp
  | some res =>
    have hnd := scrapeLoop_some_nodup page c.query.max_results _ 0 [] [] 0 0 res
      (by simp) (by simp) h
    simp only [h, Option.getD_some]
    exact List.Nodup.sublist ((List.take_sublist _ _).map recordUrl) hnd

/-- C2: the sequence returned by `scrape(page)` has length at most
`max_results`; the record list at every loop exit is already bounded by
`max_results`; extraction stops mid-round as soon as `max_results` is
reached (`processCards` never grows past the bound when entered below
it); and `stagnant_rounds` never exceeds the stagnation limit 6 at any
evaluation of the loop condition. -/
theorem google_scrape_bounds (c : GoogleCareersConnector) (page : Nat → List Card) :
    (c.scrape page).length ≤ c.query.max_results ∧
    (∀ fuel res, scrapeLoop page c.query.max_results fuel 0 [] [] 0 0 = some res →
      res.length ≤ c.query.max_results) ∧
    (∀ cards results seen, results.length < c.query.max_results →
      (processCards c.query.max_results cards results seen).1.length ≤
        c.query.max_results) ∧
    (∀ fuel s, s ∈ scrapeLoopStagnants page c.query.max_results fuel 0 [] [] 0 0 →
      s ≤ 6) := by
  refine ⟨?_, ?_, ?_, ?_⟩
  · exact List.length_take_le _ _
  · intro fuel res h
    exact scrapeLoop_some_length page _ fuel 0 [] [] 0 0 res (by simp) h
  · intro cards results seen h
    exact processCards_length_le _ cards results seen h
  · intro fuel s hs
    exact scrapeLoopStagnants_le page _ fuel 0 [] [] 0 0 (by omega) s hs

/-- Witness for C2: the loop-exit bound, the mid-round bound and the
stagnation bound instantiated on the concrete connector `cW` and page
`pageW`. -/
theorem google_scrape_bounds_witness :
    ((scrapeLoop pageW 2 21 0 [] [] 0 0).getD []).length ≤ 2 ∧
    (processCards 2 (pageW 0) [] []).1.length ≤ 2 ∧ (0 : Nat) ≤ 6 :=
  ⟨(google_scrape_bounds cW pageW).2.1 21 _ (by decide),
   (google_scrape_bounds cW pageW).2.2.1 (pageW 0) [] [] (by decide),
   (google_scrape_bounds cW pageW).2.2.2 21 0 (by decide)⟩

/-- C3: `PlaywrightConnector.fetch` releases the acquired browser/page
resource on every exit path. On the normal path both `browser.close()`
and the `with sync_playwright()` exit run; on the path where the
delegated `scrape(page)` raises, the explicit `browser.close()` line is
skipped but the context-manager exit still stops the driver (closing
the launched browser) before the failure propagates. -/
theorem playwright_fetch_releases_browser :
    (∀ (α : Type) (s : ScrapeOutcome α),
        browserReleased (PlaywrightConnector.fetch s) = true) ∧
    (∀ (α : Type) (msg : String),
        (PlaywrightConnector.fetch (ScrapeOutcome.raises msg : ScrapeOutcome α)).result
            = .error msg ∧
        (PlaywrightConnector.fetch
            (ScrapeOutcome.raises msg : ScrapeOutcome α)).browser_close_called = false ∧
        (PlaywrightConnector.fetch
            (ScrapeOutcome.raises msg : ScrapeOutcome α)).playwright_stopped = true) := by
  refine ⟨fun α s => ?_, fun α msg => ⟨rfl, rfl, rfl⟩⟩
  cases s <;> rfl

/-- C4: assuming every automation operation returns (the page model is
total), the scroll loop terminates: with the canonical fuel the loop
reaches its exit condition (`isSome`), and any larger fuel computes the
same value, so the recursion never runs unconditionally forever. -/
theorem google_scrape_terminates (c : GoogleCareersConnector) (page : Nat → List Card) :
    (scrapeLoop page c.query.max_results (scrapeFuel c.query.max_results)
        0 [] [] 0 0).isSome ∧
    ∀ fuel, scrapeFuel c.query.max_results ≤ fuel →
      scrapeLoop page c.query.max_results fuel 0 [] [] 0 0 =
        scrapeLoop page c.query.max_results (scrapeFuel c.query.max_results)
          0 [] [] 0 0 := by
  have hsome : (scrapeLoop page c.query.max_results (scrapeFuel c.query.max_results)
      0 [] [] 0 0).isSome := by
    have h := scrapeLoop_isSome page c.query.max_results
      (scrapeFuel c.query.max_results) [] 0 [] 0 (by omega)
      (by simp only [scrapeFuel, List.length_nil]; omega)
    simpa using h
  rcases Option.isSome_iff_exists.mp hsome with ⟨res, hres⟩
  refine ⟨hsome, fun fuel hf => ?_⟩
  rw [hres, scrapeLoop_mono page _ (scrapeFuel _) fuel 0 [] [] 0 0 res hf hres]

/-- Witness for C4: fuel-irrelevance at the concrete connector `cW`
(canonical fuel 21) and fuel 25. -/
theorem google_scrape_terminates_witness :
    scrapeFuel 2 ≤ 25 ∧
      scrapeLoop pageW 2 25 0 [] [] 0 0 = scrapeLoop pageW 2 (scrapeFuel 2) 0 [] [] 0 0 :=
  ⟨by decide, (google_scrape_terminates cW pageW).2 25 (by decide)⟩

/-- C5: the extraction helpers split the card text into non-empty
trimmed lines and map line 0 to title, line 1 to location and line 2 to
team, an absent line giving the empty string; with the spec's two
concrete scenarios. -/
theorem extraction_heuristic_lines :
    (∀ raw_text : String,
        _guess_title raw_text = (splitLines raw_text).getD 0 ("") ∧
        _guess_location raw_text = (splitLines raw_text).getD 1 ("") ∧
        _guess_team raw_text = (splitLines raw_text).getD 2 ("")) ∧
    _guess_title ("Software Engineer\nMountain View, CA\nCloud") = "Software Engineer" ∧
    _guess_location ("Software Engineer\nMountain View, CA\nCloud") = "Mountain View, CA" ∧
    _guess_team ("Software Engineer\nMountain View, CA\nCloud") = "Cloud" ∧
    _guess_title ("Software Engineer") = "Software Engineer" ∧
    _guess_location ("Software Engineer") = "" ∧
    _guess_team ("Software Engineer") = "" := by
  refine ⟨fun raw_text => ⟨?_, ?_, ?_⟩, by decide, by decide, by decide, by decide,
    by decide, by decide⟩
  · unfold _guess_title
    rcases splitLines raw_text with _ | ⟨a, t⟩ <;> rfl
  · unfold _guess_location
    rcases splitLines raw_text with _ | ⟨a, _ | ⟨b, t⟩⟩ <;> simp
  · unfold _guess_team
    rcases splitLines raw_text with _ | ⟨a, _ | ⟨b, _ | ⟨c3, t⟩⟩⟩ <;> simp

/-! ## Proofs: Greenhouse lemmas and remaining claims -/

theorem fetch_status_error (c : GreenhouseConnector) (resp : HttpResponse)
    (hs : 400 ≤ resp.status_code ∧ resp.status_code < 600) :
    c.fetch resp = .error (.httpStatus resp.status_code) := by
  unfold GreenhouseConnector.fetch
  rw [if_pos hs]

theorem fetch_body_none (c : GreenhouseConnector) (resp : HttpResponse)
    (hs : ¬(400 ≤ resp.status_code ∧ resp.status_code < 600))
    (hb : resp.body = none) :
    c.fetch resp = .error .invalidJson := by
  unfold GreenhouseConnector.fetch
  rw [if_neg hs, hb]

theorem fetch_eq_mapJobs (c : GreenhouseConnector) (resp : HttpResponse)
    (fields : List (String × Json)) (jobs : List Json)
    (hs : ¬(400 ≤ resp.status_code ∧ resp.status_code < 600))
    (hb : resp.body = some (.obj fields))
    (hj : fields.lookup ("jobs") = some (.arr jobs)) :
    c.fetch resp = mapJobs c.query jobs := by
  unfold GreenhouseConnector.fetch
  rw [if_neg hs, hb]
  simp only [hj, Option.getD_some]
  cases jobs with
  | nil => simp [Json.falsy, mapJobs]
  | cons j js => simp [Json.falsy]

theorem fetch_ok_mapJobs (c : GreenhouseConnector) (resp : HttpResponse)
    (out : List GhRecord) (h : c.fetch resp = .ok out) :
    ∃ jobs, mapJobs c.query jobs = .ok out := by
  unfold GreenhouseConnector.fetch at h
  split at h
  · cases h
  · split at h
    · cases h
    · split at h
      · dsimp only at h
        split at h
        · exact ⟨_, h⟩
        · cases h
      · cases h

theorem mapJobs_ok_length_getD (q : GreenhouseQuery) (jobs : List Json)
    (out : List GhRecord) (h : mapJobs q jobs = .ok out) :
    out.length = jobs.length ∧
      ∀ i, i < jobs.length → mapJob q (jobs.getD i .null) = .ok (out.getD i []) := by
  induction jobs generalizing out with
  | nil =>
    simp only [mapJobs] at h
    cases h
    simp
  | cons j js ih =>
    simp only [mapJobs] at h
    cases hj : mapJob q j with
    | error e => rw [hj] at h; cases h
    | ok r =>
      rw [hj] at h
      cases hjs : mapJobs q js with
      | error e => rw [hjs] at h; cases h
      | ok rs =>
        rw [hjs] at h
        cases h
        rcases ih rs hjs with ⟨hlen, hget⟩
        refine ⟨by simp [hlen], fun i hi => ?_⟩
        cases i with
        | zero => simpa using hj
        | succ n =>
          simp only [List.getD_cons_succ]
          exact hget n (by simpa using hi)

theorem mapJob_keys (q : GreenhouseQuery) (j : Json) (r : GhRecord)
    (h : mapJob q j = .ok r) : r.map Prod.fst = ghKeys := by
  unfold mapJob at h
  split at h
  · split at h
    · cases h
    · cases h; rfl
  · cases h

theorem mapJobs_keys (q : GreenhouseQuery) (jobs : List Json) (out : List GhRecord)
    (h : mapJobs q jobs = .ok out) : ∀ r ∈ out, r.map Prod.fst = ghKeys := by
  induction jobs generalizing out with
  | nil => simp only [mapJobs] at h; cases h; simp
  | cons j js ih =>
    simp only [mapJobs] at h
    cases hj : mapJob q j with
    | error e => rw [hj] at h; cases h
    | ok r =>
      rw [hj] at h
      cases hjs : mapJobs q js with
      | error e => rw [hjs] at h; cases h
      | ok rs =>
        rw [hjs] at h
        cases h
        intro r2 hr2
        rcases List.mem_cons.mp hr2 with rfl | hr2
        · exact mapJob_keys q j r2 hj
        · exact ih rs hjs r2 hr2


/-- C6: on the spec's Direct-Fetch scenario body with `content=true`,
`GreenhouseConnector.fetch` returns exactly one record with source
"greenhouse", title "X", location "NY", absolute_url "u1", content "c"
and raw equal to the original job object; in general, when the parsed
body is an object whose "jobs" key holds a list, each element is mapped
deterministically, in order, to one record. -/
theorem greenhouse_fetch_maps_jobs :
    GreenhouseConnector.fetch ghW ⟨200, some ghBodyW⟩ = .ok [ghRecW] ∧
    (∀ (c : GreenhouseConnector) (fields : List (String × Json)) (jobs : List Json),
      fields.lookup ("jobs") = some (.arr jobs) →
      c.fetch ⟨200, some (.obj fields)⟩ = mapJobs c.query jobs) ∧
    (∀ (q : GreenhouseQuery) (jobs : List Json) (out : List GhRecord),
      mapJobs q jobs = .ok out →
      out.length = jobs.length ∧
        ∀ i, i < jobs.length → mapJob q (jobs.getD i .null) = .ok (out.getD i [])) := by
  refine ⟨rfl, fun c fields jobs hj => ?_, fun q jobs out h =>
    mapJobs_ok_length_getD q jobs out h⟩
  exact fetch_eq_mapJobs c ⟨200, some (.obj fields)⟩ fields jobs
    (by show ¬(400 ≤ (200:Nat) ∧ (200:Nat) < 600); decide) rfl hj

/-- Witness for C6: the general mapping and the in-order
characterization instantiated on the one-job body. -/
theorem greenhouse_fetch_maps_jobs_witness :
    GreenhouseConnector.fetch ghW ⟨200, some (.obj [("jobs", .arr [ghJobW])])⟩ =
      mapJobs ghW.query [ghJobW] ∧
    [ghRecW].length = [ghJobW].length ∧
    mapJob ghW.query ([ghJobW].getD 0 .null) = .ok ([ghRecW].getD 0 []) :=
  ⟨greenhouse_fetch_maps_jobs.2.1 ghW [("jobs", .arr [ghJobW])] [ghJobW] rfl,
   (greenhouse_fetch_maps_jobs.2.2 ghW.query [ghJobW] [ghRecW] rfl).1,
   (greenhouse_fetch_maps_jobs.2.2 ghW.query [ghJobW] [ghRecW] rfl).2 0 (by decide)⟩

/-- C7 counterexample: a non-2xx response (status 300) with a parseable
body does not cause `fetch` to raise — it returns the mapped records,
because `raise_for_status` only raises for status codes ≥ 400. This
refutes the claim that every non-2xx response surfaces as a fetch
error. -/
theorem greenhouse_redirect_status_not_error :
    GreenhouseConnector.fetch ghW ⟨300, some ghBodyW⟩ = .ok [ghRecW] := rfl

/-- C7 amended: a response with status in [400, 600) (what
`raise_for_status` treats as an HTTP error) or an unparseable body
causes `fetch` to raise, and a successful `fetch` returns the complete
mapped record list — one record per element of the jobs list, never a
proper prefix. -/
theorem greenhouse_fetch_error_paths (c : GreenhouseConnector) (resp : HttpResponse) :
    (400 ≤ resp.status_code ∧ resp.status_code < 600 →
      c.fetch resp = .error (.httpStatus resp.status_code)) ∧
    (¬(400 ≤ resp.status_code ∧ resp.status_code < 600) → resp.body = none →
      c.fetch resp = .error .invalidJson) ∧
    (∀ fields jobs out, resp.body = some (.obj fields) →
      fields.lookup ("jobs") = some (.arr jobs) →
      c.fetch resp = .ok out → out.length = jobs.length) := by
  refine ⟨fetch_status_error c resp, fetch_body_none c resp,
    fun fields jobs out hb hj h => ?_⟩
  by_cases hs : 400 ≤ resp.status_code ∧ resp.status_code < 600
  · rw [fetch_status_error c resp hs] at h; cases h
  · rw [fetch_eq_mapJobs c resp fields jobs hs hb hj] at h
    exact (mapJobs_ok_length_getD c.query jobs out h).1

/-- Witness for C7 (amended): a 404 raises, an unparseable 200 body
raises, and the successful one-job fetch returns exactly one record. -/
theorem greenhouse_fetch_error_paths_witness :
    GreenhouseConnector.fetch ghW ⟨404, some ghBodyW⟩ = .error (.httpStatus 404) ∧
    GreenhouseConnector.fetch ghW ⟨200, none⟩ = .error .invalidJson ∧
    [ghRecW].length = [ghJobW].length :=
  ⟨(greenhouse_fetch_error_paths ghW ⟨404, some ghBodyW⟩).1
     (by show 400 ≤ (404:Nat) ∧ (404:Nat) < 600; decide),
   (greenhouse_fetch_error_paths ghW ⟨200, none⟩).2.1
     (by show ¬(400 ≤ (200:Nat) ∧ (200:Nat) < 600); decide) rfl,
   (greenhouse_fetch_error_paths ghW ⟨200, some ghBodyW⟩).2.2
     [("jobs", .arr [ghJobW])] [ghJobW] [ghRecW] rfl rfl (by rfl)⟩

/-- C8 counterexample: a Google scrape session emits records whose key
set does not contain "employment_type" or "posted_hint" at all: these
optional fields are omitted from the dict, not represented as empty
strings, refuting the claim that every optional source-specific field
is present as a key in every emitted record. -/
theorem google_record_missing_employment_type :
    (GoogleCareersConnector.scrape cW pageW).length = 2 ∧
    ((GoogleCareersConnector.scrape cW pageW).getD 0 []).lookup ("employment_type")
        = none ∧
    ((GoogleCareersConnector.scrape cW pageW).getD 0 []).lookup ("posted_hint")
        = none :=
  ⟨rfl, rfl, rfl⟩

/-- C8 amended: within one connector's output the record shape is
uniform — every Google record has exactly the keys source, source_url,
title, location, team, raw_text (with team/location possibly the empty
string, never omitted), and every Greenhouse record has exactly the
keys source, board_token, id, title, location, absolute_url, content,
departments, offices, raw; the employment-type and posted-hint fields
named in the Google connector's docstring are never emitted. -/
theorem connector_record_uniform_keys :
    (∀ (c : GoogleCareersConnector) (page : Nat → List Card),
      ∀ r ∈ c.scrape page, r.map Prod.fst = gKeys) ∧
    (∀ (c : GreenhouseConnector) (resp : HttpResponse) (out : List GhRecord),
      c.fetch resp = .ok out → ∀ r ∈ out, r.map Prod.fst = ghKeys) := by
  constructor
  · intro c page r hr
    unfold GoogleCareersConnector.scrape at hr
    cases h : scrapeLoop page c.query.max_results (scrapeFuel c.query.max_results)
        0 [] [] 0 0 with
    | none => rw [h] at hr; simp at hr
    | some res =>
      rw [h] at hr
      simp only [Option.getD_some] at hr
      exact scrapeLoop_some_keys page c.query.max_results _ 0 [] [] 0 0 res
        (by simp) h r (List.take_subset _ _ hr)
  · intro c resp out h r hr
    rcases fetch_ok_mapJobs c resp out h with ⟨jobs, hjobs⟩
    exact mapJobs_keys c.query jobs out hjobs r hr

/-- Witness for C8 (amended): the key sets of a concrete Google record
and a concrete Greenhouse record. -/
theorem connector_record_uniform_keys_witness :
    ((GoogleCareersConnector.scrape cW pageW).getD 0 []).map Prod.fst = gKeys ∧
    ghRecW.map Prod.fst = ghKeys :=
  ⟨connector_record_uniform_keys.1 cW pageW _ (by decide),
   connector_record_uniform_keys.2 ghW ⟨200, some ghBodyW⟩ [ghRecW] (by rfl) ghRecW
     (List.mem_singleton.mpr rfl)⟩

/-- C9: in the discrete-pagination advance strategy, whenever the loop
is live (result budget and page budget both unexhausted) and the page
shows elements, an absent-or-disabled "next" control stops the loop and
returns the accumulated (just-extracted) results, and so does a
first-element identifier that does not change from the pre-click marker
within the bounded wait — instead of looping forever. -/
theorem pagination_stop_conditions (site : Nat → PageView)
    (max_results budget k : Nat) (results : List GRecord) (seen : List String)
    (hlen : results.length < max_results) (hne : ¬((site k).elements = [])) :
    ((site k).nextPresent = false ∨ (site k).nextEnabled = false →
      paginationLoop site max_results (budget + 1) k results seen =
        (extractPage max_results (site k).elements results seen).1) ∧
    ((site k).advanceChanges = false →
      paginationLoop site max_results (budget + 1) k results seen =
        (extractPage max_results (site k).elements results seen).1) := by
  constructor
  · intro h
    simp only [paginationLoop]
    rw [if_pos hlen, if_neg hne, if_pos h]
  · intro h
    simp only [paginationLoop]
    rw [if_pos hlen, if_neg hne]
    by_cases hn : (site k).nextPresent = false ∨ (site k).nextEnabled = false
    · rw [if_pos hn]
    · rw [if_neg hn, if_pos h]

/-- Witness for C9: on the concrete site `siteW`, page 1 has a disabled
"next" control and the loop returns the extracted results. -/
theorem pagination_stop_conditions_witness :
    ([] : List GRecord).length < 10 ∧ ¬((siteW 1).elements = []) ∧
    paginationLoop siteW 10 3 1 [] [] = (extractPage 10 (siteW 1).elements [] []).1 :=
  ⟨by decide, by decide,
   (pagination_stop_conditions siteW 10 2 1 [] [] (by decide) (by decide)).1
     (Or.inr (by decide))⟩

/-- C10: for every successfully parsed JSON object body in which "jobs"
is absent or null, `GreenhouseConnector.fetch` returns the empty list
without raising: a missing or null jobs collection is zero jobs, not a
malformed-body error. -/
theorem greenhouse_missing_or_null_jobs_ok (c : GreenhouseConnector)
    (fields : List (String × Json))
    (h : fields.lookup ("jobs") = none ∨ fields.lookup ("jobs") = some Json.null) :
    c.fetch ⟨200, some (.obj fields)⟩ = .ok [] := by
  rcases h with h | h <;>
    simp [GreenhouseConnector.fetch, h, Json.falsy, mapJobs]

/-- Witness for C10: the empty object body and the explicit-null body
both yield zero jobs. -/
theorem greenhouse_missing_or_null_jobs_ok_witness :
    GreenhouseConnector.fetch ghW ⟨200, some (.obj [])⟩ = .ok [] ∧
    GreenhouseConnector.fetch ghW ⟨200, some (.obj [("jobs", Json.null)])⟩ = .ok [] :=
  ⟨greenhouse_missing_or_null_jobs_ok ghW [] (Or.inl rfl),
   greenhouse_missing_or_null_jobs_ok ghW [("jobs", Json.null)] (Or.inr rfl)⟩

end JobScout
